import Mathlib

/-!
Verification of `download_net_runtime.py` (Marseyloader).

The script is embedded shallowly: the filesystem relevant to the script
(the cache root `Dependencies/dotnet`, its `VERSION` marker and its
per-platform subdirectories) is an explicit state, and the network is an
oracle mapping a URL to the outcome of `urllib.request.urlretrieve`
together with what tar/zip extraction of the fetched file would produce.
Every control-flow branch of the Python source is reproduced, including
the fact that the `DOTNET_RUNTIME_DOWNLOADS[platform]` dictionary lookup
happens on line 100, *before* the `try:` on line 102, so that a `KeyError`
for an unknown platform escapes `download_platform_runtime` and
`update_netcore_runtime`.
-/

namespace NetRuntime

/-! ### String helpers (translations of the Python string operations used) -/

/-- Whether the first list is a prefix of the second, as a boolean. -/
def leadsWith : List Char → List Char → Bool
  | [], _ => true
  | _ :: _, [] => false
  | a :: as, b :: bs => a == b && leadsWith as bs

/-- Whether the first list occurs as a contiguous sublist of the second. -/
def subAt : List Char → List Char → Bool
  | needle, [] => needle.isEmpty
  | needle, c :: cs => leadsWith needle (c :: cs) || subAt needle cs

/-- Python `needle in hay` on strings: substring test. -/
def containsSub (hay needle : String) : Bool :=
  subAt needle.data hay.data

/-- Python `s.endswith(suffix)`. -/
def strEndsWith (s suffix : String) : Bool :=
  leadsWith suffix.data.reverse s.data.reverse

/-- Python `s.lower()`: lower-case every character. -/
def pyLower (s : String) : String :=
  String.mk (s.data.map Char.toLower)

/-- Python `s.strip()`: remove leading and trailing whitespace. -/
def pyStrip (s : String) : String :=
  String.mk (((s.data.dropWhile Char.isWhitespace).reverse.dropWhile Char.isWhitespace).reverse)

/-! ### Constants from the source -/

def PLATFORM_WINDOWS : String := "windows"
def PLATFORM_LINUX : String := "linux"
def PLATFORM_MACOS : String := "mac"

def DOTNET_RUNTIME_VERSION : String := "10.0.0"

/-- The `DOTNET_RUNTIME_DOWNLOADS` dict, as an association list. -/
def DOTNET_RUNTIME_DOWNLOADS : List (String × String) :=
  [(PLATFORM_LINUX,
    "https://builds.dotnet.microsoft.com/dotnet/Runtime/10.0.0/dotnet-runtime-10.0.0-linux-x64.tar.gz"),
   (PLATFORM_WINDOWS,
    "https://builds.dotnet.microsoft.com/dotnet/Runtime/10.0.0/dotnet-runtime-10.0.0-win-x64.zip"),
   (PLATFORM_MACOS,
    "https://builds.dotnet.microsoft.com/dotnet/Runtime/10.0.0/dotnet-runtime-10.0.0-osx-x64.tar.gz")]

/-- Dict lookup `d[k]`, returning `none` where Python raises `KeyError`. -/
def lookupUrl : List (String × String) → String → Option String
  | [], _ => none
  | (k, v) :: rest, x => if k = x then some v else lookupUrl rest x

/-! ### Platform directory contents

A platform directory's contents is the list of names in it.  The temp file
created by `urlretrieve` is `download.tmp`. -/

def tmpName : String := "download.tmp"

/-- Writing a file into a directory (no duplicate names). -/
def addFile (c : List String) (f : String) : List String :=
  if c.contains f then c else c ++ [f]

/-- `extractall`: write every archive entry into the directory. -/
def addAll (c : List String) (files : List String) : List String :=
  files.foldl addFile c

/-- Creation of the temp file by `urlretrieve`. -/
def addTmp (c : List String) : List String :=
  addFile c tmpName

/-- `os.remove(download_file)` (also models "remove if present"). -/
def removeTmp (c : List String) : List String :=
  c.filter (fun f => f ≠ tmpName)

/-! ### Network / extraction oracle -/

/-- Outcome of reading the small downloaded file for the HTML peek
(`open(..., errors='ignore').read()`): either some error was raised while
opening/reading, or the best-effort–decoded content. -/
inductive PeekResult where
  | err : PeekResult
  | ok (content : String) : PeekResult
deriving DecidableEq

/-- Outcome of extracting the downloaded file as a tar or zip archive:
success with the archive's entries, or a `TarError`/`BadZipFile` raised
after the entries in `leftover` were already written. -/
inductive ExtractResult where
  | ok (files : List String) : ExtractResult
  | err (leftover : List String) : ExtractResult
deriving DecidableEq

/-- Which extraction routine ran. -/
inductive ExtractKind where
  | tarGz : ExtractKind
  | zip : ExtractKind
deriving DecidableEq

/-- What fetching a URL does:
`netErr` — `urlretrieve` raises `urllib.error.URLError`;
`otherErr` — `urlretrieve` raises some other unexpected exception;
`noFile` — `urlretrieve` returns but the temp file does not exist;
`file` — a file of `size` bytes is produced, with the given peek
content and tar/zip extraction behaviour. -/
inductive FetchOutcome where
  | netErr (tmpWritten : Bool) : FetchOutcome
  | otherErr (tmpWritten : Bool) : FetchOutcome
  | noFile : FetchOutcome
  | file (size : Nat) (peek : PeekResult) (tarRes zipRes : ExtractResult) : FetchOutcome
deriving DecidableEq

/-- Result of one `download_platform_runtime` call: the directory contents
it leaves behind, whether `urlretrieve` was reached, which extraction was
attempted, and whether an exception escaped the function (only the
`KeyError` from the dict lookup outside the `try` can). -/
structure DlResult where
  contents : List String
  netFetch : Bool
  extractAttempted : Option ExtractKind
  raised : Bool
deriving DecidableEq

/-- The small-file HTML-error-page test (lines 117–127): only applied when
`file_size < 10240`; a peek failure is swallowed (`except: pass`). -/
def htmlMarker (content : String) : Bool :=
  containsSub (pyLower content) "html" || containsSub (pyLower content) "<!doctype"

def htmlAbort (size : Nat) (peek : PeekResult) : Bool :=
  decide (size < 10240) &&
    (match peek with
     | .err => false
     | .ok content => htmlMarker content)

/-- The body of the `try:` block of `download_platform_runtime`
(lines 102–164), given the outcome of fetching `url` into a directory
currently holding `c0`.  Every branch returns normally (`raised = false`):
all exceptions raised inside the `try` are caught by the `except` clauses,
each of which removes the temp file if present. -/
def fetchExtract (outcome : FetchOutcome) (url : String) (c0 : List String) : DlResult :=
  match outcome with
  | .netErr _ =>
    { contents := removeTmp c0, netFetch := true, extractAttempted := none, raised := false }
  | .otherErr _ =>
    { contents := removeTmp c0, netFetch := true, extractAttempted := none, raised := false }
  | .noFile =>
    { contents := removeTmp c0, netFetch := true, extractAttempted := none, raised := false }
  | .file size peek tarRes zipRes =>
    if htmlAbort size peek then
      { contents := removeTmp (addTmp c0), netFetch := true,
        extractAttempted := none, raised := false }
    else if strEndsWith url ".tar.gz" then
      match tarRes with
      | .ok files =>
        { contents := removeTmp (addAll (addTmp c0) files), netFetch := true,
          extractAttempted := some .tarGz, raised := false }
      | .err leftover =>
        { contents := removeTmp (addAll (addTmp c0) leftover), netFetch := true,
          extractAttempted := some .tarGz, raised := false }
    else if strEndsWith url ".zip" then
      match zipRes with
      | .ok files =>
        { contents := removeTmp (addAll (addTmp c0) files), netFetch := true,
          extractAttempted := some .zip, raised := false }
      | .err leftover =>
        { contents := removeTmp (addAll (addTmp c0) leftover), netFetch := true,
          extractAttempted := some .zip, raised := false }
    else
      { contents := removeTmp (addTmp c0), netFetch := true,
        extractAttempted := none, raised := false }

/-- `download_platform_runtime(dir, platform)` (lines 97–164).  The dict
lookup `DOTNET_RUNTIME_DOWNLOADS[platform]` on line 100 sits before the
`try:` on line 102, so an absent key raises `KeyError` out of the function
with the directory untouched. -/
def download_platform_runtime (fetch : String → FetchOutcome) (platform : String)
    (c0 : List String) : DlResult :=
  match lookupUrl DOTNET_RUNTIME_DOWNLOADS platform with
  | none => { contents := c0, netFetch := false, extractAttempted := none, raised := true }
  | some url => fetchExtract (fetch url) url c0

/-! ### The cache filesystem and `update_netcore_runtime` -/

/-- The filesystem state the script touches: whether `Dependencies/dotnet`
exists, the content of its `VERSION` file (`none` if absent), and the
per-platform subdirectories with their contents. -/
structure FS where
  cacheExists : Bool
  version : Option String
  dirs : List (String × List String)
deriving DecidableEq

def lookupA : List (String × List String) → String → Option (List String)
  | [], _ => none
  | (k, v) :: rest, x => if k = x then some v else lookupA rest x

def setA : List (String × List String) → String → List String → List (String × List String)
  | [], x, c => [(x, c)]
  | (k, v) :: rest, x, c => if k = x then (x, c) :: rest else (k, v) :: setA rest x c

/-- `os.path.exists` / `os.listdir` on a platform subdirectory: `none` if
the directory does not exist, else its contents. -/
def lookupDir (s : FS) (q : String) : Option (List String) :=
  if s.cacheExists then lookupA s.dirs q else none

/-- `os.mkdir` / writes inside a platform subdirectory. -/
def setDir (s : FS) (q : String) (c : List String) : FS :=
  { s with dirs := setA s.dirs q c }

/-- Reading the `VERSION` file (lines 44–49): its stripped content, or
`none` on `FileNotFoundError` (file absent, in particular when the cache
root itself is absent). -/
def readVersion (s : FS) : Option String :=
  if s.cacheExists then s.version.map pyStrip else none

/-- Lines 44–63 of `update_netcore_runtime`: read the stored version,
wipe the whole cache root (`shutil.rmtree`) when it exists and the stored
version differs from `DOTNET_RUNTIME_VERSION`, recreate it
(`os.makedirs(..., exist_ok=True)`) and overwrite `VERSION` with the
expected version. -/
def bookkeep (s : FS) : FS :=
  let s1 :=
    if readVersion s ≠ some DOTNET_RUNTIME_VERSION ∧ s.cacheExists = true then
      ({ cacheExists := false, version := none, dirs := [] } : FS)
    else s
  { cacheExists := true, version := some DOTNET_RUNTIME_VERSION, dirs := s1.dirs }

/-- Observable result of the per-platform loop (lines 70–92). -/
structure LoopResult where
  fs : FS
  attempts : List String
  netFetches : List String
  processed : List String
  raised : Bool
deriving DecidableEq

/-- The per-platform loop (lines 70–92): for each platform in order,
check whether its directory is absent or empty; if so create it when
absent and call `download_platform_runtime`.  `attempts` records the
platforms for which `download_platform_runtime` was invoked, `netFetches`
those for which `urlretrieve` actually ran, `processed` the platforms
whose loop iteration was entered.  An escaping `KeyError` aborts the loop
(`raised = true`). -/
def ensureLoop (fetch : String → FetchOutcome) : FS → List String → LoopResult
  | s, [] => { fs := s, attempts := [], netFetches := [], processed := [], raised := false }
  | s, q :: rest =>
    match lookupDir s q with
    | none =>
      let r := download_platform_runtime fetch q []
      if r.raised then
        { fs := setDir s q r.contents, attempts := [q],
          netFetches := if r.netFetch then [q] else [],
          processed := [q], raised := true }
      else
        let k := ensureLoop fetch (setDir s q r.contents) rest
        { fs := k.fs, attempts := q :: k.attempts,
          netFetches := (if r.netFetch then [q] else []) ++ k.netFetches,
          processed := q :: k.processed, raised := k.raised }
    | some c =>
      if c.isEmpty then
        let r := download_platform_runtime fetch q c
        if r.raised then
          { fs := s, attempts := [q],
            netFetches := if r.netFetch then [q] else [],
            processed := [q], raised := true }
        else
          let k := ensureLoop fetch (setDir s q r.contents) rest
          { fs := k.fs, attempts := q :: k.attempts,
            netFetches := (if r.netFetch then [q] else []) ++ k.netFetches,
            processed := q :: k.processed, raised := k.raised }
      else
        let k := ensureLoop fetch s rest
        { fs := k.fs, attempts := k.attempts, netFetches := k.netFetches,
          processed := q :: k.processed, raised := k.raised }

/-- Observable result of one `update_netcore_runtime` call. -/
structure EnsureResult where
  fs : FS
  attempts : List String
  netFetches : List String
  processed : List String
  raised : Bool
  warned : Bool
deriving DecidableEq

/-- `update_netcore_runtime(platforms)` (lines 34–94): version bookkeeping
first, then the empty-list early return with a warning (lines 66–68), then
the per-platform loop. -/
def update_netcore_runtime (fetch : String → FetchOutcome) (s : FS)
    (platforms : List String) : EnsureResult :=
  let s3 := bookkeep s
  if platforms.isEmpty then
    { fs := s3, attempts := [], netFetches := [], processed := [], raised := false,
      warned := true }
  else
    let k := ensureLoop fetch s3 platforms
    { fs := k.fs, attempts := k.attempts, netFetches := k.netFetches,
      processed := k.processed, raised := k.raised, warned := false }

/-- A platform directory is "populated": it exists and is non-empty. -/
def dirPopulated (s : FS) (q : String) : Bool :=
  match lookupDir s q with
  | some c => !c.isEmpty
  | none => false

/-- The failure outcomes that the `except` clauses of
`download_platform_runtime` catch: a `URLError` from the network layer, an
unexpected exception, or a tar/zip extraction error for the archive format
the URL dispatches to. -/
def caughtFailure (url : String) : FetchOutcome → Bool
  | .netErr _ => true
  | .otherErr _ => true
  | .noFile => false
  | .file _ _ tarRes zipRes =>
    (strEndsWith url ".tar.gz" &&
      (match tarRes with | .err _ => true | .ok _ => false)) ||
    (strEndsWith url ".zip" &&
      (match zipRes with | .err _ => true | .ok _ => false))

/-! ### Concrete inputs used in counterexamples and witnesses -/

/-- A network oracle where every fetch fails with `URLError`. -/
def f0 : String → FetchOutcome := fun _ => FetchOutcome.netErr true

/-- A network oracle where every fetch yields a healthy large archive. -/
def fOk : String → FetchOutcome :=
  fun _ => FetchOutcome.file 20000 (PeekResult.ok "")
    (ExtractResult.ok ["shared"]) (ExtractResult.ok ["shared"])

/-- A network oracle where every fetch yields a small HTML error page. -/
def fHtml : String → FetchOutcome :=
  fun _ => FetchOutcome.file 300 (PeekResult.ok "<!doctype html><html></html>")
    (ExtractResult.ok ["x"]) (ExtractResult.ok ["x"])

/-- Fresh machine: no cache root at all. -/
def fs0 : FS := { cacheExists := false, version := none, dirs := [] }

/-- Stale cache: old version stamp, linux already populated. -/
def fsStale : FS := { cacheExists := true, version := some "9.0.0", dirs := [("linux", ["host"])] }

def urlLinux : String :=
  "https://builds.dotnet.microsoft.com/dotnet/Runtime/10.0.0/dotnet-runtime-10.0.0-linux-x64.tar.gz"

/-! ### Helper lemmas -/

theorem tmp_not_mem_removeTmp (c : List String) : tmpName ∉ removeTmp c := by
  simp [removeTmp, List.mem_filter]

theorem removeTmp_addTmp (c : List String) : removeTmp (addTmp c) = removeTmp c := by
  unfold addTmp addFile
  split
  · rfl
  · simp [removeTmp, List.filter_append, tmpName]

theorem fetchExtract_raised (o : FetchOutcome) (url : String) (c0 : List String) :
    (fetchExtract o url c0).raised = false := by
  cases o with
  | netErr b => rfl
  | otherErr b => rfl
  | noFile => rfl
  | file size peek tarRes zipRes =>
    simp only [fetchExtract]
    split
    · rfl
    · split
      · cases tarRes <;> rfl
      · split
        · cases zipRes <;> rfl
        · rfl

theorem fetchExtract_netFetch (o : FetchOutcome) (url : String) (c0 : List String) :
    (fetchExtract o url c0).netFetch = true := by
  cases o with
  | netErr b => rfl
  | otherErr b => rfl
  | noFile => rfl
  | file size peek tarRes zipRes =>
    simp only [fetchExtract]
    split
    · rfl
    · split
      · cases tarRes <;> rfl
      · split
        · cases zipRes <;> rfl
        · rfl

theorem fetchExtract_tmp (o : FetchOutcome) (url : String) (c0 : List String) :
    tmpName ∉ (fetchExtract o url c0).contents := by
  cases o with
  | netErr b => exact tmp_not_mem_removeTmp c0
  | otherErr b => exact tmp_not_mem_removeTmp c0
  | noFile => exact tmp_not_mem_removeTmp c0
  | file size peek tarRes zipRes =>
    simp only [fetchExtract]
    split
    · exact tmp_not_mem_removeTmp _
    · split
      · cases tarRes <;> exact tmp_not_mem_removeTmp _
      · split
        · cases zipRes <;> exact tmp_not_mem_removeTmp _
        · exact tmp_not_mem_removeTmp _

theorem download_eq_of_lookup_some {platform url : String}
    (h : lookupUrl DOTNET_RUNTIME_DOWNLOADS platform = some url)
    (fetch : String → FetchOutcome) (c0 : List String) :
    download_platform_runtime fetch platform c0 = fetchExtract (fetch url) url c0 := by
  unfold download_platform_runtime
  rw [h]

theorem download_eq_of_lookup_none {platform : String}
    (h : lookupUrl DOTNET_RUNTIME_DOWNLOADS platform = none)
    (fetch : String → FetchOutcome) (c0 : List String) :
    download_platform_runtime fetch platform c0 =
      { contents := c0, netFetch := false, extractAttempted := none, raised := true } := by
  unfold download_platform_runtime
  rw [h]

theorem lookupA_setA_self (d : List (String × List String)) (x : String) (c : List String) :
    lookupA (setA d x c) x = some c := by
  induction d with
  | nil => simp [setA, lookupA]
  | cons kv rest ih =>
    obtain ⟨k, v⟩ := kv
    by_cases hk : k = x
    · simp [setA, hk, lookupA]
    · simp [setA, hk, lookupA, ih]

theorem lookupA_setA_ne (d : List (String × List String)) (x : String) (c : List String)
    (q : String) (h : x ≠ q) : lookupA (setA d x c) q = lookupA d q := by
  induction d with
  | nil => simp [setA, lookupA, h]
  | cons kv rest ih =>
    obtain ⟨k, v⟩ := kv
    by_cases hk : k = x
    · subst hk
      simp [setA, lookupA, h]
    · by_cases hq : k = q
      · simp only [setA, lookupA]
        rw [if_neg hk]
        simp only [lookupA]
        rw [if_pos hq, if_pos hq]
      · simp only [setA, lookupA]
        rw [if_neg hk]
        simp only [lookupA]
        rw [if_neg hq, if_neg hq, ih]

theorem setDir_cacheExists (s : FS) (q : String) (c : List String) :
    (setDir s q c).cacheExists = s.cacheExists := rfl

theorem setDir_version (s : FS) (q : String) (c : List String) :
    (setDir s q c).version = s.version := rfl

theorem lookupDir_setDir_ne (s : FS) (q : String) (c : List String) (x : String)
    (h : q ≠ x) : lookupDir (setDir s q c) x = lookupDir s x := by
  simp [lookupDir, setDir, lookupA_setA_ne _ _ _ _ h]

theorem bookkeep_cacheExists (s : FS) : (bookkeep s).cacheExists = true := rfl

theorem bookkeep_version (s : FS) : (bookkeep s).version = some DOTNET_RUNTIME_VERSION := rfl

theorem pyStrip_version : pyStrip DOTNET_RUNTIME_VERSION = DOTNET_RUNTIME_VERSION := by decide

theorem readVersion_of_version (s : FS) (h1 : s.cacheExists = true)
    (h2 : s.version = some DOTNET_RUNTIME_VERSION) :
    readVersion s = some DOTNET_RUNTIME_VERSION := by
  simp [readVersion, h1, h2, pyStrip_version]

theorem bookkeep_of_stale (s : FS) (h1 : s.cacheExists = true)
    (h2 : readVersion s ≠ some DOTNET_RUNTIME_VERSION) :
    bookkeep s = { cacheExists := true, version := some DOTNET_RUNTIME_VERSION, dirs := [] } := by
  unfold bookkeep
  rw [if_pos ⟨h2, h1⟩]

theorem bookkeep_of_current (s : FS) (h : readVersion s = some DOTNET_RUNTIME_VERSION) :
    bookkeep s = { cacheExists := true, version := some DOTNET_RUNTIME_VERSION, dirs := s.dirs } := by
  unfold bookkeep
  rw [if_neg]
  rintro ⟨hne, _⟩
  exact hne h

theorem ensureLoop_fs_invariant (fetch : String → FetchOutcome) (pl : List String) (s : FS) :
    (ensureLoop fetch s pl).fs.version = s.version ∧
    (ensureLoop fetch s pl).fs.cacheExists = s.cacheExists := by
  induction pl generalizing s with
  | nil => exact ⟨rfl, rfl⟩
  | cons q rest ih =>
    simp only [ensureLoop]
    cases hd : lookupDir s q with
    | none =>
      by_cases hr : (download_platform_runtime fetch q []).raised = true
      · simp [hr, setDir]
      · simp only [hr, if_false, Bool.false_eq_true]
        have h := ih (setDir s q (download_platform_runtime fetch q []).contents)
        simpa [setDir] using h
    | some c =>
      by_cases hce : c.isEmpty = true
      · simp only [hce, if_true]
        by_cases hr : (download_platform_runtime fetch q c).raised = true
        · simp [hr]
        · simp only [hr, if_false, Bool.false_eq_true]
          have h := ih (setDir s q (download_platform_runtime fetch q c).contents)
          simpa [setDir] using h
      · simp only [hce, if_false, Bool.false_eq_true]
        exact ih s

theorem ensureLoop_skip (fetch : String → FetchOutcome) (pl : List String) (s : FS)
    (h : ∀ q ∈ pl, dirPopulated s q = true) :
    ensureLoop fetch s pl =
      { fs := s, attempts := [], netFetches := [], processed := pl, raised := false } := by
  induction pl with
  | nil => rfl
  | cons q rest ih =>
    have hq := h q (List.mem_cons_self q rest)
    unfold dirPopulated at hq
    simp only [ensureLoop]
    cases hd : lookupDir s q with
    | none => rw [hd] at hq; cases hq
    | some c =>
      rw [hd] at hq
      have hce : c.isEmpty = false := by
        simpa using hq
      simp only [hce, if_false, Bool.false_eq_true]
      rw [ih (fun x hx => h x (List.mem_cons_of_mem q hx))]

theorem ensureLoop_processed_cons (fetch : String → FetchOutcome) (s : FS) (q : String)
    (rest : List String) :
    ∃ t, (ensureLoop fetch s (q :: rest)).processed = q :: t := by
  simp only [ensureLoop]
  cases hd : lookupDir s q with
  | none =>
    by_cases hr : (download_platform_runtime fetch q []).raised = true
    · simp only [hr, if_true]
      exact ⟨[], rfl⟩
    · simp only [hr, if_false, Bool.false_eq_true]
      exact ⟨_, rfl⟩
  | some c =>
    by_cases hce : c.isEmpty = true
    · simp only [hce, if_true]
      by_cases hr : (download_platform_runtime fetch q c).raised = true
      · simp only [hr, if_true]
        exact ⟨[], rfl⟩
      · simp only [hr, if_false, Bool.false_eq_true]
        exact ⟨_, rfl⟩
    · simp only [hce, if_false, Bool.false_eq_true]
      exact ⟨_, rfl⟩

theorem update_fs_version (fetch : String → FetchOutcome) (s : FS) (pl : List String) :
    (update_netcore_runtime fetch s pl).fs.version = some DOTNET_RUNTIME_VERSION ∧
    (update_netcore_runtime fetch s pl).fs.cacheExists = true := by
  unfold update_netcore_runtime
  by_cases hp : pl.isEmpty
  · simp [hp, bookkeep_version, bookkeep_cacheExists]
  · simp only [hp, if_false, Bool.false_eq_true]
    have h := ensureLoop_fs_invariant fetch pl (bookkeep s)
    exact ⟨by rw [h.1, bookkeep_version], by rw [h.2, bookkeep_cacheExists]⟩

theorem zip_not_tar (url : String) (h : strEndsWith url ".zip" = true) :
    strEndsWith url ".tar.gz" = false := by
  have hz : (".zip" : String).data.reverse = ['p', 'i', 'z', '.'] := by decide
  have ht : (".tar.gz" : String).data.reverse = ['z', 'g', '.', 'r', 'a', 't', '.'] := by decide
  unfold strEndsWith at h ⊢
  rw [hz] at h
  rw [ht]
  cases hrev : url.data.reverse with
  | nil =>
    rw [hrev] at h
    simp [leadsWith] at h
  | cons c cs =>
    rw [hrev] at h
    simp only [leadsWith, Bool.and_eq_true, beq_iff_eq] at h
    obtain ⟨hc, _⟩ := h
    subst hc
    simp [leadsWith]

theorem ensureLoop_fetch_all (fetch : String → FetchOutcome) (pl : List String) :
    ∀ s : FS, s.cacheExists = true →
    (∀ q ∈ pl, (lookupUrl DOTNET_RUNTIME_DOWNLOADS q).isSome = true) →
    ∀ q ∈ pl, q ∈ (ensureLoop fetch s pl).netFetches ∨ dirPopulated s q = true := by
  induction pl with
  | nil =>
    intro s _ _ q hq
    cases hq
  | cons p rest ih =>
    intro s hce hknown q hq
    obtain ⟨u, hu⟩ := Option.isSome_iff_exists.mp (hknown p (List.mem_cons_self p rest))
    have hraised : ∀ c0, (download_platform_runtime fetch p c0).raised = false := by
      intro c0
      rw [download_eq_of_lookup_some hu]
      exact fetchExtract_raised _ _ _
    have hnet : ∀ c0, (download_platform_runtime fetch p c0).netFetch = true := by
      intro c0
      rw [download_eq_of_lookup_some hu]
      exact fetchExtract_netFetch _ _ _
    have hknown' : ∀ x ∈ rest, (lookupUrl DOTNET_RUNTIME_DOWNLOADS x).isSome = true :=
      fun x hx => hknown x (List.mem_cons_of_mem p hx)
    simp only [ensureLoop]
    cases hd : lookupDir s p with
    | none =>
      simp only [hraised [], if_false, Bool.false_eq_true, hnet []]
      rcases List.mem_cons.mp hq with hqp | hqr
      · subst hqp
        left
        simp
      · have hres := ih (setDir s p (download_platform_runtime fetch p []).contents)
          (by rw [setDir_cacheExists]; exact hce) hknown' q hqr
        rcases hres with h1 | h2
        · left
          simp only [if_true, List.mem_append]
          right
          exact h1
        · by_cases hqp : p = q
          · subst hqp
            left
            simp
          · right
            unfold dirPopulated at h2 ⊢
            rw [lookupDir_setDir_ne s p _ q hqp] at h2
            exact h2
    | some c =>
      by_cases hcemp : c.isEmpty = true
      · simp only [hcemp, if_true]
        simp only [hraised c, if_false, Bool.false_eq_true, hnet c]
        rcases List.mem_cons.mp hq with hqp | hqr
        · subst hqp
          left
          simp
        · have hres := ih (setDir s p (download_platform_runtime fetch p c).contents)
            (by rw [setDir_cacheExists]; exact hce) hknown' q hqr
          rcases hres with h1 | h2
          · left
            simp only [if_true, List.mem_append]
            right
            exact h1
          · by_cases hqp : p = q
            · subst hqp
              left
              simp
            · right
              unfold dirPopulated at h2 ⊢
              rw [lookupDir_setDir_ne s p _ q hqp] at h2
              exact h2
      · simp only [hcemp, if_false, Bool.false_eq_true]
        rcases List.mem_cons.mp hq with hqp | hqr
        · subst hqp
          right
          unfold dirPopulated
          rw [hd]
          simp only [Bool.not_eq_true']
          cases hcc : c.isEmpty
          · rfl
          · exact absurd hcc hcemp
        · exact ih s hce hknown' q hqr

theorem ensureLoop_processed_cons_of_known (fetch : String → FetchOutcome) (s : FS)
    (A : String) (pl2 : List String) (uA : String)
    (hA : lookupUrl DOTNET_RUNTIME_DOWNLOADS A = some uA) :
    ∃ s2, (ensureLoop fetch s (A :: pl2)).processed =
      A :: (ensureLoop fetch s2 pl2).processed := by
  have hraised : ∀ c0, (download_platform_runtime fetch A c0).raised = false := by
    intro c0
    rw [download_eq_of_lookup_some hA]
    exact fetchExtract_raised _ _ _
  simp only [ensureLoop]
  cases hd : lookupDir s A with
  | none =>
    simp only [hraised [], if_false, Bool.false_eq_true]
    exact ⟨_, rfl⟩
  | some c =>
    by_cases hcemp : c.isEmpty = true
    · simp only [hcemp, if_true, hraised c, if_false, Bool.false_eq_true]
      exact ⟨_, rfl⟩
    · simp only [hcemp, if_false, Bool.false_eq_true]
      exact ⟨s, rfl⟩

theorem mem_processed_second (fetch : String → FetchOutcome) (s : FS) (A B : String)
    (rest : List String) (uA : String)
    (hA : lookupUrl DOTNET_RUNTIME_DOWNLOADS A = some uA) :
    B ∈ (ensureLoop fetch s (A :: B :: rest)).processed := by
  obtain ⟨s2, hs2⟩ := ensureLoop_processed_cons_of_known fetch s A (B :: rest) uA hA
  rw [hs2]
  obtain ⟨t, ht⟩ := ensureLoop_processed_cons fetch s2 B rest
  rw [ht]
  exact List.mem_cons_of_mem A (List.mem_cons_self B t)

theorem update_cons (fetch : String → FetchOutcome) (s : FS) (q : String) (rest : List String) :
    update_netcore_runtime fetch s (q :: rest) =
      { fs := (ensureLoop fetch (bookkeep s) (q :: rest)).fs,
        attempts := (ensureLoop fetch (bookkeep s) (q :: rest)).attempts,
        netFetches := (ensureLoop fetch (bookkeep s) (q :: rest)).netFetches,
        processed := (ensureLoop fetch (bookkeep s) (q :: rest)).processed,
        raised := (ensureLoop fetch (bookkeep s) (q :: rest)).raised,
        warned := false } := rfl

theorem update_skip_of_populated (fetch : String → FetchOutcome) (t : FS)
    (platforms : List String) (h1 : t.cacheExists = true)
    (h2 : t.version = some DOTNET_RUNTIME_VERSION)
    (h : ∀ q ∈ platforms, dirPopulated t q = true) :
    (update_netcore_runtime fetch t platforms).attempts = [] ∧
    (update_netcore_runtime fetch t platforms).netFetches = [] := by
  have hbk := bookkeep_of_current t (readVersion_of_version t h1 h2)
  have hsame : ∀ q, dirPopulated (bookkeep t) q = dirPopulated t q := by
    intro q
    rw [hbk]
    unfold dirPopulated lookupDir
    rw [h1]
  cases platforms with
  | nil => exact ⟨rfl, rfl⟩
  | cons p pl2 =>
    rw [update_cons]
    rw [ensureLoop_skip fetch (p :: pl2) (bookkeep t)
      (fun q hq => by rw [hsame q]; exact h q hq)]
    exact ⟨rfl, rfl⟩

/-! ### Claim theorems -/

/-- Claim C1 (code-bug demonstration).  The claim states that
`ensure(["bogus", ...])` creates the empty platform directory, fails with a
lookup failure for that platform only, does not raise out of `ensure`, and
still processes the remaining platforms.  On the code this is false: the
`DOTNET_RUNTIME_DOWNLOADS[platform]` lookup on line 100 sits before the
`try:` on line 102, so the `KeyError` propagates out of
`update_netcore_runtime`.  Concretely, from a fresh cache,
`update_netcore_runtime(["bogus", "linux"])` creates the empty `bogus`
directory, raises, never reaches `linux`, and performs no network fetch. -/
theorem c1_unknown_platform_keyerror_escapes :
    (update_netcore_runtime f0 fs0 ["bogus", "linux"]).raised = true ∧
    (update_netcore_runtime f0 fs0 ["bogus", "linux"]).processed = ["bogus"] ∧
    (update_netcore_runtime f0 fs0 ["bogus", "linux"]).attempts = ["bogus"] ∧
    lookupDir (update_netcore_runtime f0 fs0 ["bogus", "linux"]).fs "bogus" = some [] ∧
    lookupDir (update_netcore_runtime f0 fs0 ["bogus", "linux"]).fs "linux" = none ∧
    (update_netcore_runtime f0 fs0 ["bogus", "linux"]).netFetches = [] := by
  decide

/-- Claim C2: if after a first `update_netcore_runtime` run every requested
platform directory is populated (exists and is non-empty), then running it
again with the same platform list and the same network oracle invokes
`download_platform_runtime` for no platform and performs zero network
fetches. -/
theorem c2_second_run_performs_no_fetch (fetch : String → FetchOutcome) (s : FS)
    (platforms : List String)
    (h : ∀ q ∈ platforms, dirPopulated (update_netcore_runtime fetch s platforms).fs q = true) :
    (update_netcore_runtime fetch (update_netcore_runtime fetch s platforms).fs
        platforms).attempts = [] ∧
    (update_netcore_runtime fetch (update_netcore_runtime fetch s platforms).fs
        platforms).netFetches = [] :=
  update_skip_of_populated fetch (update_netcore_runtime fetch s platforms).fs platforms
    (update_fs_version fetch s platforms).2 (update_fs_version fetch s platforms).1 h

theorem c2_witness :
    (∀ q ∈ ["linux"], dirPopulated (update_netcore_runtime fOk fs0 ["linux"]).fs q = true) ∧
    ((update_netcore_runtime fOk (update_netcore_runtime fOk fs0 ["linux"]).fs
        ["linux"]).attempts = [] ∧
     (update_netcore_runtime fOk (update_netcore_runtime fOk fs0 ["linux"]).fs
        ["linux"]).netFetches = []) :=
  ⟨by decide, c2_second_run_performs_no_fetch fOk fs0 ["linux"] (by decide)⟩

/-- Claim C3, counterexample to the claim as stated.  `fsStale` is an
initial state whose cache root exists, whose stored version differs from
the expected one, and in which `linux` is populated; `linux` is a requested
platform, yet after `update_netcore_runtime(["bogus", "linux"])` it was
never re-downloaded (indeed `download_platform_runtime` was never even
invoked for it), because the unknown platform `bogus` earlier in the list
raised an uncaught `KeyError`. -/
theorem c3_counterexample :
    fsStale.cacheExists = true ∧
    readVersion fsStale ≠ some DOTNET_RUNTIME_VERSION ∧
    dirPopulated fsStale "linux" = true ∧
    "linux" ∈ ["bogus", "linux"] ∧
    "linux" ∉ (update_netcore_runtime f0 fsStale ["bogus", "linux"]).netFetches ∧
    "linux" ∉ (update_netcore_runtime f0 fsStale ["bogus", "linux"]).attempts := by
  decide

/-- Claim C3, amended: for every initial state whose cache root exists and
whose stored (stripped) VERSION differs from the expected version, the
version bookkeeping wipes the whole cache root, recreates it and writes the
expected version before any platform is processed; and, provided every
requested platform has an entry in `DOTNET_RUNTIME_DOWNLOADS`, every
requested platform is then re-downloaded even if previously populated. -/
theorem c3_stale_version_forces_redownload (fetch : String → FetchOutcome) (s : FS)
    (platforms : List String) (h1 : s.cacheExists = true)
    (h2 : readVersion s ≠ some DOTNET_RUNTIME_VERSION)
    (h3 : ∀ q ∈ platforms, (lookupUrl DOTNET_RUNTIME_DOWNLOADS q).isSome = true) :
    bookkeep s = { cacheExists := true, version := some DOTNET_RUNTIME_VERSION, dirs := [] } ∧
    ∀ q ∈ platforms, q ∈ (update_netcore_runtime fetch s platforms).netFetches := by
  have hbk := bookkeep_of_stale s h1 h2
  refine ⟨hbk, ?_⟩
  intro q hq
  cases platforms with
  | nil => cases hq
  | cons p pl2 =>
    rw [update_cons]
    have hall := ensureLoop_fetch_all fetch (p :: pl2) (bookkeep s)
      (bookkeep_cacheExists s) h3 q hq
    rcases hall with hin | hpop
    · exact hin
    · rw [hbk] at hpop
      unfold dirPopulated lookupDir at hpop
      simp [lookupA] at hpop

theorem c3_witness :
    (fsStale.cacheExists = true ∧
     readVersion fsStale ≠ some DOTNET_RUNTIME_VERSION ∧
     (∀ q ∈ ["linux"], (lookupUrl DOTNET_RUNTIME_DOWNLOADS q).isSome = true)) ∧
    (bookkeep fsStale =
      { cacheExists := true, version := some DOTNET_RUNTIME_VERSION, dirs := [] } ∧
     ∀ q ∈ ["linux"], q ∈ (update_netcore_runtime fOk fsStale ["linux"]).netFetches) :=
  ⟨⟨by decide, by decide, by decide⟩,
   c3_stale_version_forces_redownload fOk fsStale ["linux"] (by decide) (by decide) (by decide)⟩

/-- Claim C4: if platform `A` has a download URL and fetching that URL ends
in one of the failures caught by the `except` clauses (a `URLError`, an
unexpected exception, or a tar/zip extraction error for the format the URL
dispatches to), then the failure is caught inside
`download_platform_runtime` (no exception escapes), the temp file is not
present in the directory it leaves behind, and in
`update_netcore_runtime([A, B, ...])` the next platform `B` is still
processed. -/
theorem c4_caught_failure_is_isolated (fetch : String → FetchOutcome) (s : FS) (A B : String)
    (rest : List String) (uA : String) (c0 : List String)
    (hA : lookupUrl DOTNET_RUNTIME_DOWNLOADS A = some uA)
    (hfail : caughtFailure uA (fetch uA) = true) :
    (download_platform_runtime fetch A c0).raised = false ∧
    tmpName ∉ (download_platform_runtime fetch A c0).contents ∧
    B ∈ (update_netcore_runtime fetch s (A :: B :: rest)).processed := by
  refine ⟨?_, ?_, ?_⟩
  · rw [download_eq_of_lookup_some hA]
    exact fetchExtract_raised _ _ _
  · rw [download_eq_of_lookup_some hA]
    exact fetchExtract_tmp _ _ _
  · rw [update_cons]
    exact mem_processed_second fetch (bookkeep s) A B rest uA hA

theorem c4_witness :
    (lookupUrl DOTNET_RUNTIME_DOWNLOADS "linux" = some urlLinux ∧
     caughtFailure urlLinux (f0 urlLinux) = true) ∧
    ((download_platform_runtime f0 "linux" []).raised = false ∧
     tmpName ∉ (download_platform_runtime f0 "linux" []).contents ∧
     "windows" ∈ (update_netcore_runtime f0 fs0 ["linux", "windows"]).processed) :=
  ⟨⟨by decide, by decide⟩,
   c4_caught_failure_is_isolated f0 fs0 "linux" "windows" [] urlLinux [] (by decide) (by decide)⟩

/-- Claim C5: a downloaded file of size strictly below 10240 bytes whose
best-effort-decoded content contains `html` or `<!doctype`
case-insensitively is treated as an HTML error page:
`download_platform_runtime` deletes the temp file and returns without
attempting any extraction, and a previously empty platform directory is
left empty. -/
theorem c5_small_html_page_rejected (fetch : String → FetchOutcome) (platform url : String)
    (size : Nat) (content : String) (tarRes zipRes : ExtractResult) (c0 : List String)
    (hlk : lookupUrl DOTNET_RUNTIME_DOWNLOADS platform = some url)
    (hf : fetch url = FetchOutcome.file size (PeekResult.ok content) tarRes zipRes)
    (hsize : size < 10240) (hhtml : htmlMarker content = true) :
    (download_platform_runtime fetch platform c0).extractAttempted = none ∧
    (download_platform_runtime fetch platform c0).contents = removeTmp c0 ∧
    (c0 = [] → (download_platform_runtime fetch platform c0).contents = []) := by
  have habort : htmlAbort size (PeekResult.ok content) = true := by
    simp [htmlAbort, hsize, hhtml]
  have hres : fetchExtract (FetchOutcome.file size (PeekResult.ok content) tarRes zipRes)
      url c0 =
      { contents := removeTmp (addTmp c0), netFetch := true,
        extractAttempted := none, raised := false } := by
    simp only [fetchExtract]
    rw [if_pos habort]
  rw [download_eq_of_lookup_some hlk, hf, hres]
  refine ⟨rfl, removeTmp_addTmp c0, ?_⟩
  rintro rfl
  decide

theorem c5_witness :
    (lookupUrl DOTNET_RUNTIME_DOWNLOADS "linux" = some urlLinux ∧
     fHtml urlLinux = FetchOutcome.file 300 (PeekResult.ok "<!doctype html><html></html>")
       (ExtractResult.ok ["x"]) (ExtractResult.ok ["x"]) ∧
     300 < 10240 ∧ htmlMarker "<!doctype html><html></html>" = true) ∧
    ((download_platform_runtime fHtml "linux" []).extractAttempted = none ∧
     (download_platform_runtime fHtml "linux" []).contents = removeTmp [] ∧
     ([] = ([] : List String) → (download_platform_runtime fHtml "linux" []).contents = [])) :=
  ⟨⟨by decide, rfl, by decide, by decide⟩,
   c5_small_html_page_rejected fHtml "linux" urlLinux 300 "<!doctype html><html></html>"
     (ExtractResult.ok ["x"]) (ExtractResult.ok ["x"]) [] (by decide) rfl (by decide) (by decide)⟩

/-- Claim C6: with the HTML-error-page check passed, a URL ending in
`.tar.gz` dispatches to gzip-tar extraction into the target directory; a
URL ending in `.zip` dispatches to zip extraction; any other suffix
attempts no extraction and only removes the temp file, with no other
filesystem change. -/
theorem c6_format_dispatch (url : String) (size : Nat) (peek : PeekResult)
    (tarRes zipRes : ExtractResult) (c0 : List String)
    (hsafe : htmlAbort size peek = false) :
    (strEndsWith url ".tar.gz" = true →
      (fetchExtract (FetchOutcome.file size peek tarRes zipRes) url c0).extractAttempted =
        some ExtractKind.tarGz ∧
      ∀ files, tarRes = ExtractResult.ok files →
        (fetchExtract (FetchOutcome.file size peek tarRes zipRes) url c0).contents =
          removeTmp (addAll (addTmp c0) files)) ∧
    (strEndsWith url ".zip" = true →
      (fetchExtract (FetchOutcome.file size peek tarRes zipRes) url c0).extractAttempted =
        some ExtractKind.zip ∧
      ∀ files, zipRes = ExtractResult.ok files →
        (fetchExtract (FetchOutcome.file size peek tarRes zipRes) url c0).contents =
          removeTmp (addAll (addTmp c0) files)) ∧
    (strEndsWith url ".tar.gz" = false → strEndsWith url ".zip" = false →
      fetchExtract (FetchOutcome.file size peek tarRes zipRes) url c0 =
        { contents := removeTmp (addTmp c0), netFetch := true,
          extractAttempted := none, raised := false }) := by
  have hno : ¬(htmlAbort size peek = true) := by
    rw [hsafe]
    simp
  refine ⟨?_, ?_, ?_⟩
  · intro htar
    cases tarRes with
    | ok files0 =>
      constructor
      · simp only [fetchExtract]
        rw [if_neg hno, if_pos htar]
      · intro files hfe
        cases hfe
        simp only [fetchExtract]
        rw [if_neg hno, if_pos htar]
    | err leftover =>
      constructor
      · simp only [fetchExtract]
        rw [if_neg hno, if_pos htar]
      · intro files hfe
        simp at hfe
  · intro hzip
    have hnt : ¬(strEndsWith url ".tar.gz" = true) := by
      rw [zip_not_tar url hzip]
      simp
    cases zipRes with
    | ok files0 =>
      constructor
      · simp only [fetchExtract]
        rw [if_neg hno, if_neg hnt, if_pos hzip]
      · intro files hfe
        cases hfe
        simp only [fetchExtract]
        rw [if_neg hno, if_neg hnt, if_pos hzip]
    | err leftover =>
      constructor
      · simp only [fetchExtract]
        rw [if_neg hno, if_neg hnt, if_pos hzip]
      · intro files hfe
        simp at hfe
  · intro ht hz
    have hnt : ¬(strEndsWith url ".tar.gz" = true) := by
      rw [ht]
      simp
    have hnz : ¬(strEndsWith url ".zip" = true) := by
      rw [hz]
      simp
    simp only [fetchExtract]
    rw [if_neg hno, if_neg hnt, if_neg hnz]

theorem c6_witness :
    htmlAbort 20000 PeekResult.err = false ∧
    (fetchExtract (FetchOutcome.file 20000 PeekResult.err
        (ExtractResult.ok ["a"]) (ExtractResult.ok ["b"])) urlLinux []).extractAttempted =
      some ExtractKind.tarGz :=
  ⟨by decide,
   ((c6_format_dispatch urlLinux 20000 PeekResult.err (ExtractResult.ok ["a"])
      (ExtractResult.ok ["b"]) [] (by decide)).1 (by decide)).1⟩

/-- Claim C7: whenever `download_platform_runtime` returns (success path or
any handled failure path, i.e. no exception escaped), `download.tmp` is not
among the contents it leaves in the target directory. -/
theorem c7_no_tmp_after_return (fetch : String → FetchOutcome) (platform : String)
    (c0 : List String)
    (h : (download_platform_runtime fetch platform c0).raised = false) :
    tmpName ∉ (download_platform_runtime fetch platform c0).contents := by
  cases hlk : lookupUrl DOTNET_RUNTIME_DOWNLOADS platform with
  | none =>
    rw [download_eq_of_lookup_none hlk] at h
    simp at h
  | some url =>
    rw [download_eq_of_lookup_some hlk]
    exact fetchExtract_tmp _ _ _

theorem c7_witness :
    (download_platform_runtime f0 "linux" []).raised = false ∧
    tmpName ∉ (download_platform_runtime f0 "linux" []).contents :=
  ⟨by decide, c7_no_tmp_after_return f0 "linux" [] (by decide)⟩

/-- Claim C8: for a downloaded file below the 10 KiB threshold, an error
raised while peeking its contents is swallowed; the run proceeds to the
extraction dispatch exactly as if the peek had succeeded and found no HTML
marker, and the peek never aborts the platform. -/
theorem c8_peek_error_swallowed (url : String) (size : Nat) (tarRes zipRes : ExtractResult)
    (c0 : List String) (hsize : size < 10240) :
    fetchExtract (FetchOutcome.file size PeekResult.err tarRes zipRes) url c0 =
      fetchExtract (FetchOutcome.file size (PeekResult.ok "") tarRes zipRes) url c0 ∧
    (fetchExtract (FetchOutcome.file size PeekResult.err tarRes zipRes) url c0).raised =
      false := by
  have h1 : htmlAbort size PeekResult.err = false := by
    simp [htmlAbort]
  have h2 : htmlAbort size (PeekResult.ok "") = false := by
    have hm : htmlMarker "" = false := by decide
    simp [htmlAbort, hm]
  have hn1 : ¬(htmlAbort size PeekResult.err = true) := by
    rw [h1]
    simp
  have hn2 : ¬(htmlAbort size (PeekResult.ok "") = true) := by
    rw [h2]
    simp
  constructor
  · simp only [fetchExtract]
    rw [if_neg hn1, if_neg hn2]
  · exact fetchExtract_raised _ _ _

theorem c8_witness :
    300 < 10240 ∧
    (fetchExtract (FetchOutcome.file 300 PeekResult.err
        (ExtractResult.ok ["a"]) (ExtractResult.ok ["b"])) urlLinux [] =
      fetchExtract (FetchOutcome.file 300 (PeekResult.ok "")
        (ExtractResult.ok ["a"]) (ExtractResult.ok ["b"])) urlLinux []) :=
  ⟨by decide,
   (c8_peek_error_swallowed urlLinux 300 (ExtractResult.ok ["a"]) (ExtractResult.ok ["b"])
     [] (by decide)).1⟩

/-- Claim C9: calling `update_netcore_runtime` with an empty platform list
performs the version bookkeeping, logs the warning, and returns without
error: no platform is processed, `download_platform_runtime` is never
invoked, and no network fetch happens. -/
theorem c9_empty_platform_list (fetch : String → FetchOutcome) (s : FS) :
    update_netcore_runtime fetch s [] =
      { fs := bookkeep s, attempts := [], netFetches := [], processed := [],
        raised := false, warned := true } := rfl

/-- Claim C10: the version bookkeeping precedes the empty-list check, so
every call leaves a cache root whose VERSION file holds exactly the
expected version; in particular, with an existing cache root and a
mismatched stored version, even `update_netcore_runtime([])` wipes the
cache root, recreates it, and rewrites VERSION before returning early. -/
theorem c10_version_always_written (fetch : String → FetchOutcome) (s : FS)
    (platforms : List String) :
    ((update_netcore_runtime fetch s platforms).fs.cacheExists = true ∧
     (update_netcore_runtime fetch s platforms).fs.version = some DOTNET_RUNTIME_VERSION) ∧
    (s.cacheExists = true → readVersion s ≠ some DOTNET_RUNTIME_VERSION →
      (update_netcore_runtime fetch s []).fs =
        { cacheExists := true, version := some DOTNET_RUNTIME_VERSION, dirs := [] }) := by
  constructor
  · exact ⟨(update_fs_version fetch s platforms).2, (update_fs_version fetch s platforms).1⟩
  · intro h1 h2
    have : (update_netcore_runtime fetch s []).fs = bookkeep s := rfl
    rw [this]
    exact bookkeep_of_stale s h1 h2

theorem c10_witness :
    ((update_netcore_runtime f0 fsStale ["linux"]).fs.cacheExists = true ∧
     (update_netcore_runtime f0 fsStale ["linux"]).fs.version =
       some DOTNET_RUNTIME_VERSION) ∧
    (update_netcore_runtime f0 fsStale []).fs =
      { cacheExists := true, version := some DOTNET_RUNTIME_VERSION, dirs := [] } :=
  ⟨(c10_version_always_written f0 fsStale ["linux"]).1,
   (c10_version_always_written f0 fsStale ["linux"]).2 (by decide) (by decide)⟩

end NetRuntime
